import Mathlib

/-!
Verification development for the MAS Member Hub backend
(`backend/main.py`, `backend/models.py`, `backend/auth/otp.py`,
`backend/util/__init__.py`).

Shallow embedding conventions used throughout this file:

* Time is a single integer timeline of seconds in the fixed reference
  time zone (`America/New_York`).  The code stores timestamps in UTC and
  converts all period boundaries to UTC before comparing; that conversion
  is an order-preserving shift, so it is absorbed into the representation
  and every comparison is performed directly on the local-second values.
  Calendar dates (for the streak computation) are integers counting days.
* Python strings holding member names are modelled as lists of Unicode
  code points (`List Nat`), so the case-mapping functions used by
  `capitalize_name` are explicit arithmetic on code points (ASCII case
  mapping, which is what the names in this system use).  Opaque strings
  (emails, barcodes, codes) that the code only compares for equality are
  modelled as Lean `String`s.
* The relational store is a record of lists (`households`, `members`,
  `checkins`).  `query(...).first()` is `List.find?` in insertion order,
  `query(...).all()` is `List.filter`, inserts append to the list.
  SQLAlchemy's autoflush makes rows added earlier in a request visible to
  later queries of the same request, so the store value is threaded
  through each handler.
* Random generation (`generate_barcode`, `gen_code_member`, `uuid4`) is
  modelled by explicit streams of candidates (`Nat → String`) and by
  explicitly supplied fresh row ids; `while True:` retry loops are given
  explicit fuel, with `none` meaning "the loop is still running after
  that many attempts".
* Fallible handlers return `Except Err (response × DB)`, mirroring
  `raise HTTPException(status_code)`.
-/

namespace Hub

/-! ## Errors (HTTPException status codes) -/

/-- Error outcomes raised by the handlers, one constructor per
`HTTPException` status code used by the embedded endpoints. -/
inductive Err where
  | badRequest
  | unauthorized
  | notFound
  | conflict
  | internal
deriving DecidableEq, Repr

/-! ## Data model (`backend/models.py`) -/

/-- A row of the `households` table (verification-relevant columns). -/
structure Household where
  id : Nat
  owner_email : String
  household_code : String
deriving DecidableEq, Repr

/-- A row of the `members` table (verification-relevant columns).
`deleted_at` is the soft-delete marker; queries only ever test it
against `NULL`. -/
structure Member where
  id : Nat
  email : String
  name : List Nat
  barcode : Option String := none
  member_code : Option String := none
  active : Bool := true
  household_id : Option Nat := none
  deleted_at : Option Int := none
deriving DecidableEq, Repr

/-- A row of the `checkins` table. -/
structure Checkin where
  member_id : Nat
  timestamp : Int
deriving DecidableEq, Repr

/-- The relational store. -/
structure DB where
  households : List Household := []
  members : List Member := []
  checkins : List Checkin := []
deriving DecidableEq, Repr

/-! ## Period logic (Eastern-local seconds) -/

/-- Seconds elapsed since local midnight. -/
def secOfDay (now : Int) : Int := now % 86400

/-- Local midnight of the day containing `now`
(`now.replace(hour=0, minute=0, second=0, microsecond=0)`). -/
def dayStart (now : Int) : Int := now - secOfDay now

/-- The local hour, `now.hour`. -/
def hourOf (now : Int) : Int := secOfDay now / 3600

/-- `is_am = hour < 12`. -/
def isAM (now : Int) : Bool := hourOf now < 12

/-- Start of the current AM/PM period (00:00:00 resp. 12:00:00 local). -/
def periodStart (now : Int) : Int :=
  dayStart now + (if isAM now then 0 else 43200)

/-- End of the current AM/PM period (11:59:59 resp. 23:59:59 local);
the query window is inclusive at both ends. -/
def periodEnd (now : Int) : Int :=
  dayStart now + (if isAM now then 43199 else 86399)

/-- First stored check-in of member `mid` with timestamp in the closed
interval `[lo, hi]` (the AM/PM-period query `timestamp >= lo`,
`timestamp <= hi`). -/
def findCheckinIncl (db : DB) (mid : Nat) (lo hi : Int) : Option Checkin :=
  db.checkins.find? fun c =>
    c.member_id == mid && decide (lo ≤ c.timestamp) && decide (c.timestamp ≤ hi)

/-- First stored check-in of member `mid` with timestamp in the
right-open interval `[lo, hi)` (the full-calendar-day query
`timestamp >= lo`, `timestamp < hi`). -/
def findCheckinRO (db : DB) (mid : Nat) (lo hi : Int) : Option Checkin :=
  db.checkins.find? fun c =>
    c.member_id == mid && decide (lo ≤ c.timestamp) && decide (c.timestamp < hi)

/-! ## Streak calculation (`calculate_streak`, `main.py` 1374-1408).
Inputs are the check-in timestamps reduced to calendar-day numbers
(`c.date()`); `sorted(set(...))` is deduplication followed by an
ascending sort. -/

/-- Insert into an ascending list (helper of the ascending sort). -/
def insertAsc (x : Int) : List Int → List Int
  | [] => [x]
  | y :: ys => if x ≤ y then x :: y :: ys else y :: insertAsc x ys

/-- Ascending insertion sort. -/
def sortAsc (l : List Int) : List Int := l.foldr insertAsc []

/-- `sorted(set(c.date() for c in check_ins))`: distinct dates in
ascending order. -/
def sortedDates (check_ins : List Int) : List Int := sortAsc check_ins.dedup

/-- The streak loop: walks the remaining sorted distinct dates carrying
the previous date, the running streak (`temp_streak`) and the best
streak so far; on exhaustion the current streak is the final run's
length if the last date is within one day of `today`, else `0`. -/
def streakWalk (today : Int) : Int → Int → Int → List Int → Int × Int
  | prev, temp, highest, [] =>
    (if today - prev ≤ 1 then temp else 0, highest)
  | prev, temp, highest, d :: ds =>
    let t := if d - prev = 1 then temp + 1 else 1
    streakWalk today d t (max highest t) ds

/-- `calculate_streak` returning `(current_streak, highest_streak)`. -/
def calculate_streak (today : Int) (check_ins : List Int) : Int × Int :=
  if check_ins = [] then (0, 0)
  else
    match sortedDates check_ins with
    | [] => (0, 0)
    | d :: ds => streakWalk today d 1 (max 0 1) ds

/-! ## OTP rate limiter (`backend/auth/otp.py` 30-43).
`_otp_buckets` maps a key to `(last_sent_epoch_seconds, day_count)`;
`dict.get(key, (0, 0))` is modelled by a total map whose initial value
is `(0, 0)` everywhere. -/

/-- The `_otp_buckets` map. -/
def Buckets := String → Int × Int

/-- The initial (empty) bucket map: every key reads `(0, 0)`. -/
def initBuckets : Buckets := fun _ => (0, 0)

/-- `rate_limit_ok`: at most 1 grant per 60 seconds and 5 per rolling
24-hour window per key; returns the decision and the updated map. -/
def rate_limit_ok (now : Int) (key : String) (buckets : Buckets) :
    Bool × Buckets :=
  let last := (buckets key).1
  let day_count := (buckets key).2
  if now - last < 60 then (false, buckets)
  else
    let day_count := if now - last > 24 * 3600 then 0 else day_count
    if day_count ≥ 5 then (false, buckets)
    else (true, fun k => if k = key then (now, day_count + 1) else buckets k)

/-! ## Name capitalization (`capitalize_name`, `backend/util/__init__.py`).
Python strings are lists of code points; `.strip()`/`.split()` use the
whitespace class, and the case maps are ASCII case mapping. -/

/-- Python's whitespace test for `str.strip` / `str.split`
(space, tab, linefeed, carriage return, vertical tab, form feed). -/
def pyIsSpace (n : Nat) : Bool :=
  decide (n = 32 ∨ n = 9 ∨ n = 10 ∨ n = 13 ∨ n = 11 ∨ n = 12)

/-- ASCII `str.upper` on one code point. -/
def toUpperA (n : Nat) : Nat := if 97 ≤ n ∧ n ≤ 122 then n - 32 else n

/-- ASCII `str.lower` on one code point. -/
def toLowerA (n : Nat) : Nat := if 65 ≤ n ∧ n ≤ 90 then n + 32 else n

/-- `str.strip()`: drop whitespace from both ends. -/
def pyStrip (l : List Nat) : List Nat :=
  ((l.dropWhile pyIsSpace).reverse.dropWhile pyIsSpace).reverse

/-- Worker for `str.split()`: scans the input, accumulating the current
word in reverse; whitespace flushes a non-empty accumulator. -/
def splitWsAux : List Nat → List Nat → List (List Nat)
  | [], acc => if acc = [] then [] else [acc.reverse]
  | c :: cs, acc =>
    if pyIsSpace c then
      if acc = [] then splitWsAux cs []
      else acc.reverse :: splitWsAux cs []
    else splitWsAux cs (c :: acc)

/-- `str.split()` with no argument: maximal runs of non-whitespace,
empty words never produced. -/
def pySplit (l : List Nat) : List (List Nat) := splitWsAux l []

/-- `" ".join(words)`. -/
def joinWords : List (List Nat) → List Nat
  | [] => []
  | [w] => w
  | w :: ws => w ++ 32 :: joinWords ws

/-- `word.capitalize()`: first code point uppercased, the rest
lowercased (ASCII, where title case coincides with upper case). -/
def pyCapitalize : List Nat → List Nat
  | [] => []
  | c :: rest => toUpperA c :: rest.map toLowerA

/-- The lowercased nobiliary particles special-cased by
`capitalize_name` (`mc`, `mac`, `van`, `von`, `de`, `del`, `da`, `di`,
`du`, `le`, `la` as code-point lists). -/
def particles : List (List Nat) :=
  [[109, 99], [109, 97, 99], [118, 97, 110], [118, 111, 110],
   [100, 101], [100, 101, 108], [100, 97], [100, 105], [100, 117],
   [108, 101], [108, 97]]

/-- Per-word branch of `capitalize_name`: words containing an
apostrophe (code point 39) or equal (lowercased) to a particle get
`word[0].upper() + word[1:].lower()`; other words get
`word.capitalize()`. -/
def capWord (w : List Nat) : List Nat :=
  match w with
  | [] => []
  | c :: rest =>
    if w.contains 39 || particles.contains (w.map toLowerA) then
      toUpperA c :: rest.map toLowerA
    else pyCapitalize (c :: rest)

/-- `capitalize_name`: empty (falsy) input is returned unchanged;
otherwise strip, split into words, capitalize each word (the body's
`if word:` guard is vacuous because `split()` never yields empty
words), and join with single spaces. -/
def capitalize_name (name : List Nat) : List Nat :=
  if name = [] then name
  else joinWords ((pySplit (pyStrip name)).map capWord)

/-! ## Unique-code generation.
`generate_barcode()` draws random 12-digit strings; the callers differ
only in their retry policy.  The candidate stream is the explicit
argument `gen`. -/

/-- Is the candidate barcode already taken in the store
(`query(Member).filter(Member.barcode == candidate)`)? -/
def barcodeTaken (db : DB) (c : String) : Bool :=
  db.members.any fun m => m.barcode == some c

/-- The generate-and-recheck loop shared by every barcode allocation
site: try candidates `gen i, gen (i+1), …` for at most `fuel` attempts,
re-checking uniqueness against the store on each attempt, and return
the fresh code with the next unused stream index.  With `fuel = 10`
this is the bounded `for _ in range(10)` loop of
`households_create_member`; for the `while True:` loops
(`create_member`, `register_member_only`, `register_family`,
`add_family_members`) the fuel is an embedding artifact and `none`
means the loop is still running after `fuel` attempts. -/
def genLoop (gen : Nat → String) (db : DB) : Nat → Nat → Option (String × Nat)
  | _, 0 => none
  | i, fuel + 1 =>
    let c := gen i
    if barcodeTaken db c then genLoop gen db (i + 1) fuel
    else some (c, i + 1)

/-- The `before_insert` hook `set_member_code` (`models.py` 69-76): if
the member has no `member_code`, run `for _ in range(5)`, whose body
generates one candidate, assigns it and immediately `break`s — a single
generation with no store lookup of any kind. -/
def set_member_code (gen : Nat → String) : Option String → Option String
  | none => some (gen 0)
  | some c => some c

/-! ## Single check-in (`POST /checkin`, `main.py` 645-709) -/

/-- Response of the single check-in endpoint. -/
structure CheckinResp where
  member_id : Nat
  timestamp : Int
  am : Bool
  already_checked_in : Bool
deriving DecidableEq, Repr

/-- `check_in`: resolve the member by email (`query.first()`, soft
deletion not filtered here), compute the current AM/PM period window,
report an existing check-in inside the window as an idempotent success
with its original timestamp, otherwise insert a new check-in stamped
with the current time. -/
def check_in (now : Int) (email : String) (db : DB) :
    Except Err (CheckinResp × DB) :=
  if email = "" then .error .badRequest
  else
    match db.members.find? (fun m => m.email == email) with
    | none => .error .notFound
    | some member =>
      match findCheckinIncl db member.id (periodStart now) (periodEnd now) with
      | some existing =>
        .ok ({ member_id := member.id, timestamp := existing.timestamp,
               am := isAM now, already_checked_in := true }, db)
      | none =>
        .ok ({ member_id := member.id, timestamp := now,
               am := isAM now, already_checked_in := false },
             { db with checkins := db.checkins ++ [⟨member.id, now⟩] })

/-! ## Barcode / email check-in (`POST /checkin-by-barcode`,
`main.py` 1770-1877) -/

/-- Member resolution for the scanning endpoints: first by barcode,
falling back to treating the input as an email (family QR path); both
lookups skip soft-deleted members. -/
def resolveByBarcodeOrEmail (db : DB) (code : String) : Option Member :=
  match db.members.find? (fun m => m.barcode == some code && m.deleted_at == none) with
  | some m => some m
  | none => db.members.find? fun m => m.email == code && m.deleted_at == none

/-- Response of the barcode/email check-in endpoint: the family branch
reports `member_count` (members checked in now) against `family_size`;
the individual branch reports the single member and timestamp. -/
inductive BarcodeResp where
  | family (member_count family_size : Nat)
      (checked_in_members : List (List Nat)) (primary_id : Nat)
  | individual (member_id : Nat) (timestamp : Int)
deriving DecidableEq, Repr

/-- The family loop of `checkin_by_barcode`: for each family member not
yet checked in inside `[ds, de)`, insert a check-in stamped with the
one shared timestamp `now` and record the name.  The store is threaded
because rows added earlier in the loop are visible to later queries. -/
def familyLoop (now ds de : Int) :
    List Member → DB → List (List Nat) → DB × List (List Nat)
  | [], db, names => (db, names)
  | fm :: rest, db, names =>
    if (findCheckinRO db fm.id ds de).isSome then
      familyLoop now ds de rest db names
    else
      familyLoop now ds de rest
        { db with checkins := db.checkins ++ [⟨fm.id, now⟩] }
        (names ++ [fm.name])

/-- `checkin_by_barcode`: resolve by barcode then email; a check-in of
the resolved member inside today's full-calendar-day window raises a
409 Conflict; otherwise, with more than one non-deleted member sharing
the resolved member's email, run the family loop, else insert an
individual check-in. -/
def checkin_by_barcode (now : Int) (code : String) (db : DB) :
    Except Err (BarcodeResp × DB) :=
  if code = "" then .error .badRequest
  else
    match resolveByBarcodeOrEmail db code with
    | none => .error .notFound
    | some member =>
      let ds := dayStart now
      let de := ds + 86400
      if (findCheckinRO db member.id ds de).isSome then .error .conflict
      else
        let family := db.members.filter fun m =>
          m.email == member.email && m.deleted_at == none
        if 1 < family.length then
          let r := familyLoop now ds de family db []
          .ok (.family r.2.length family.length r.2 member.id, r.1)
        else
          .ok (.individual member.id now,
               { db with checkins := db.checkins ++ [⟨member.id, now⟩] })

/-! ## Member update (`PUT /member/{member_id}`, `main.py` 1490-1538) -/

/-- `update_member`: resolve the non-deleted member by id, capitalize
and set the new name, and if the submitted email differs from the
member's current email, set the new email on every non-deleted member
that carries the old email (the family-wide cascade). -/
def update_member (member_id : Nat) (newName : List Nat)
    (newEmail : String) (db : DB) : Except Err DB :=
  match db.members.find? (fun m => m.id == member_id && m.deleted_at == none) with
  | none => .error .notFound
  | some member =>
    let capName := capitalize_name newName
    let ms1 := db.members.map fun m =>
      if m.id = member.id then { m with name := capName } else m
    if member.email ≠ newEmail then
      .ok { db with members := ms1.map fun m =>
              if m.email = member.email ∧ m.deleted_at = none
              then { m with email := newEmail } else m }
    else
      .ok { db with members := ms1 }

/-! ## Member creation paths -/

/-- `POST /member` (`create_member`, `main.py` 972-1029): resolve or
create the household by owner email, reject a duplicate non-deleted
member carrying the capitalized name with 409 Conflict, then allocate a
barcode with the unbounded `while True:` loop and insert.  `newHid` and
`newMid` stand for the freshly drawn row ids and `fuel` bounds the
observation of the unbounded loop (`.error .internal` never occurs in
the code; it marks fuel exhaustion of the still-running loop). -/
def create_member (gen : Nat → String) (fuel : Nat) (newHid newMid : Nat)
    (email : String) (name : List Nat) (db : DB) :
    Except Err (Member × DB) :=
  if email = "" ∨ name = [] then .error .badRequest
  else
    let capitalized := capitalize_name name
    match db.households.find? (fun h => h.owner_email == email) with
    | some hh =>
      if (db.members.find? fun m =>
            m.household_id == some hh.id && m.name == capitalized &&
            m.deleted_at == none).isSome then .error .conflict
      else
        match genLoop gen db 0 fuel with
        | none => .error .internal
        | some (bc, _) =>
          let m : Member := { id := newMid, email := email, name := capitalized,
                              barcode := some bc, household_id := some hh.id }
          .ok (m, { db with members := db.members ++ [m] })
    | none =>
      let hh : Household := { id := newHid, owner_email := email,
                              household_code := "" }
      let db1 : DB := { db with households := db.households ++ [hh] }
      match genLoop gen db1 0 fuel with
      | none => .error .internal
      | some (bc, _) =>
        let m : Member := { id := newMid, email := email, name := capitalized,
                            barcode := some bc, household_id := some hh.id }
        .ok (m, { db1 with members := db1.members ++ [m] })

/-- `POST /api/households/members` (`households_create_member`,
`main.py` 562-595): after session auth resolves the household, allocate
a barcode with the bounded `for _ in range(10)` loop (500 error when
every attempt collides), then insert a member named `body.name.strip()`
— with no duplicate-name check of any kind. -/
def households_create_member (hid : Nat) (gen : Nat → String) (newMid : Nat)
    (name : List Nat) (db : DB) : Except Err (Member × DB) :=
  match db.households.find? (fun h => h.id == hid) with
  | none => .error .unauthorized
  | some hh =>
    match genLoop gen db 0 10 with
    | none => .error .internal
    | some (bc, _) =>
      let m : Member := { id := newMid, email := hh.owner_email,
                          name := pyStrip name, barcode := some bc,
                          household_id := some hid }
      .ok (m, { db with members := db.members ++ [m] })

/-- The insertion loop of `register_family`: one member per submitted
name, each with a capitalized name and a barcode from the unbounded
generation loop; fresh ids are drawn consecutively from `nextId` and
the candidate stream index is threaded across members. -/
def insertFamilyMembers (gen : Nat → String) (fuel : Nat) (email : String)
    (hid : Nat) : List (List Nat) → Nat → Nat → DB →
    Option (List Member × DB)
  | [], _, _, db => some ([], db)
  | nm :: rest, nextId, gi, db =>
    match genLoop gen db gi fuel with
    | none => none
    | some (bc, gi2) =>
      let m : Member := { id := nextId, email := email,
                          name := capitalize_name nm, barcode := some bc,
                          household_id := some hid }
      match insertFamilyMembers gen fuel email hid rest (nextId + 1) gi2
              { db with members := db.members ++ [m] } with
      | none => none
      | some (ms, db2) => some (m :: ms, db2)

/-- `POST /family/register` (`register_family`, `main.py` 1098-1165):
resolve or create the household, abort with 409 Conflict when any
submitted name — compared verbatim, before capitalization — already
names a non-deleted member of the household, then insert one member per
submitted name with the capitalized form of that name. -/
def register_family (gen : Nat → String) (fuel : Nat) (newHid baseId : Nat)
    (email : String) (names : List (List Nat)) (db : DB) :
    Except Err (List Member × DB) :=
  if email = "" ∨ names = [] then .error .badRequest
  else
    match db.households.find? (fun h => h.owner_email == email) with
    | some hh =>
      let existing := names.filter fun nm =>
        (db.members.find? fun m =>
          m.household_id == some hh.id && m.name == nm &&
          m.deleted_at == none).isSome
      if existing ≠ [] then .error .conflict
      else
        match insertFamilyMembers gen fuel email hh.id names baseId 0 db with
        | none => .error .internal
        | some (ms, db2) => .ok (ms, db2)
    | none =>
      let hh : Household := { id := newHid, owner_email := email,
                              household_code := "" }
      let db1 : DB := { db with households := db.households ++ [hh] }
      match insertFamilyMembers gen fuel email newHid names baseId 0 db1 with
      | none => .error .internal
      | some (ms, db2) => .ok (ms, db2)

/-- Post-state extractor used by concrete evaluations: the stored
member list after a handler returning `(response, DB)`, `none` on
error. -/
def postMembers {α : Type} : Except Err (α × DB) → Option (List Member)
  | .ok (_, db) => some db.members
  | .error _ => none

/-! ## Concrete store fixtures used by witnesses and counterexamples -/

/-- Code points of the name `John`. -/
def nmJohn : List Nat := [74, 111, 104, 110]

/-- Code points of the name `john` (lower-case variant). -/
def nmjohn : List Nat := [106, 111, 104, 110]

/-- A household with one registered member named `John`. -/
def dbDup : DB :=
  { households := [{ id := 1, owner_email := "f@x", household_code := "AB2CD" }],
    members := [{ id := 7, email := "f@x", name := nmJohn, household_id := some 1 }] }

/-- First member of the 3-member family fixture (no check-in today). -/
def mAnn : Member := { id := 1, email := "f@x", name := [65, 110, 110], barcode := some "111" }

/-- Second member of the 3-member family fixture (checked in today). -/
def mBob : Member := { id := 2, email := "f@x", name := [66, 111, 98], barcode := some "222" }

/-- Third member of the 3-member family fixture (checked in today). -/
def mCid : Member := { id := 3, email := "f@x", name := [67, 105, 100], barcode := some "333" }

/-- Family of three sharing an email, the unchecked member listed
first; today's window for `now = 50000` is `[0, 86400)`. -/
def dbFam : DB :=
  { members := [mAnn, mBob, mCid], checkins := [⟨2, 100⟩, ⟨3, 200⟩] }

/-- The same family with an already-checked-in member listed first, so
the email lookup resolves to a member who already checked in today. -/
def dbFamSwapped : DB :=
  { members := [mBob, mAnn, mCid], checkins := [⟨2, 100⟩, ⟨3, 200⟩] }

/-- A single member with a barcode who already checked in today. -/
def dbSolo : DB :=
  { members := [{ id := 1, email := "s@x", name := [65], barcode := some "111" }],
    checkins := [⟨1, 100⟩] }

/-- The member row of `dbFresh`. -/
def mFresh : Member := { id := 1, email := "a@b", name := [65] }

/-- A single member with no check-ins yet. -/
def dbFresh : DB := { members := [mFresh] }

/-- The member row of `dbUpd`. -/
def mUpd : Member := { id := 1, email := "a", name := [65] }

/-- A two-member family plus one soft-deleted member, for the email
cascade. -/
def dbUpd : DB :=
  { members := [mUpd,
                { id := 2, email := "a", name := [66] },
                { id := 3, email := "c", name := [67] },
                { id := 4, email := "a", name := [68], deleted_at := some 5 }] }

/-- Candidate stream whose first ten candidates collide with `db10`. -/
def gen10 : Nat → String := fun i => if i < 10 then "B" ++ toString i else "F"

/-- Store holding the ten barcodes `B0`, …, `B9`. -/
def db10 : DB :=
  { members := (List.range 10).map fun i =>
      { id := i, email := "x", name := [65], barcode := some ("B" ++ toString i) } }

/-- Store in which the member code `C1` is already assigned. -/
def dbCode : DB :=
  { members := [{ id := 1, email := "x", name := [65], member_code := some "C1" }] }

/-! ## General helper lemmas -/

theorem find?_append_none {α : Type} (p : α → Bool) (l1 l2 : List α)
    (h : l1.find? p = none) : (l1 ++ l2).find? p = l2.find? p := by
  induction l1 with
  | nil => simp
  | cons a l ih =>
    simp only [List.find?] at h ⊢
    cases hpa : p a with
    | true => simp [hpa] at h
    | false => simp only [hpa] at h ⊢; exact ih h

theorem find?_append_some {α : Type} (p : α → Bool) (l1 l2 : List α) (x : α)
    (h : l1.find? p = some x) : (l1 ++ l2).find? p = some x := by
  induction l1 with
  | nil => simp at h
  | cons a l ih =>
    simp only [List.find?] at h ⊢
    cases hpa : p a with
    | true => simp only [hpa] at h ⊢; exact h
    | false => simp only [hpa] at h ⊢; exact ih h

theorem find?_eq_filter_head {α : Type} (p : α → Bool) (l : List α) :
    l.find? p = (l.filter p).head? := by
  induction l with
  | nil => simp
  | cons a l ih =>
    simp only [List.find?, List.filter]
    cases hpa : p a with
    | false => exact ih
    | true => rfl

theorem filter_eq_nil_of_find?_none {α : Type} (p : α → Bool) (l : List α)
    (h : l.find? p = none) : l.filter p = [] := by
  induction l with
  | nil => simp
  | cons a l ih =>
    simp only [List.find?] at h
    cases hpa : p a with
    | true => simp [hpa] at h
    | false => simp only [hpa] at h; simp [List.filter, hpa, ih h]

/-- The current instant lies inside its own AM/PM period window. -/
theorem self_mem_period (now : Int) :
    periodStart now ≤ now ∧ now ≤ periodEnd now := by
  unfold periodStart periodEnd dayStart isAM hourOf secOfDay
  split_ifs with h1 <;> simp only [decide_eq_true_eq] at h1 <;> omega

/-! ## C1: streak scenarios -/

/-- C1 (corrected): for check-ins whose distinct sorted calendar dates
are `{today-4, today-3, today-2, today}`, `calculate_streak` returns
`highest_streak = 3` but `current_streak = 1` — not `0` as claimed: the
final run `{today}` has length 1 and its last date is today, so the
current streak is 1.  For distinct dates `{today-1, today}` it returns
`(2, 2)` as claimed. -/
theorem calculate_streak_scenarios :
    (∀ (today : Int) (cs : List Int),
        sortedDates cs = [today - 4, today - 3, today - 2, today] →
        calculate_streak today cs = (1, 3)) ∧
    (∀ (today : Int) (cs : List Int),
        sortedDates cs = [today - 1, today] →
        calculate_streak today cs = (2, 2)) := by
  constructor
  · intro today cs hs
    have hne : cs ≠ [] := by
      intro h
      rw [h] at hs
      simp [sortedDates, sortAsc] at hs
    have e1 : today - 3 - (today - 4) = 1 := by ring
    have e2 : today - 2 - (today - 3) = 1 := by ring
    have e3 : today - (today - 2) = 2 := by ring
    have e4 : today - today = 0 := by ring
    simp only [calculate_streak, hne, if_false, ite_false, hs, streakWalk,
      e1, e2, e3, e4]
    norm_num
  · intro today cs hs
    have hne : cs ≠ [] := by
      intro h
      rw [h] at hs
      simp [sortedDates, sortAsc] at hs
    have e1 : today - (today - 1) = 1 := by ring
    have e4 : today - today = 0 := by ring
    simp only [calculate_streak, hne, if_false, ite_false, hs, streakWalk,
      e1, e4]
    norm_num

/-- C1 witness: the two scenario behaviours evaluated at `today = 10`
with date sets `{6,7,8,10}` and `{9,10}`. -/
theorem calculate_streak_scenarios_witness :
    calculate_streak 10 [6, 7, 8, 10] = (1, 3) ∧
    calculate_streak 10 [9, 10] = (2, 2) :=
  ⟨calculate_streak_scenarios.1 10 [6, 7, 8, 10] (by decide),
   calculate_streak_scenarios.2 10 [9, 10] (by decide)⟩

/-- C1 counterexample: at `today = 10` with distinct dates
`{today-4, today-3, today-2, today} = {6, 7, 8, 10}` the code returns
`current_streak = 1`, so the claimed `current_streak = 0` is false. -/
theorem calculate_streak_claim_counterexample :
    (calculate_streak 10 [6, 7, 8, 10]).2 = 3 ∧
    (calculate_streak 10 [6, 7, 8, 10]).1 ≠ 0 := by
  decide

/-! ## C7 and C9: the OTP rate limiter -/

/-- Run `rate_limit_ok` over a list of request times for one key,
collecting the decisions. -/
def runRL (key : String) : List Int → Buckets → List Bool × Buckets
  | [], m => ([], m)
  | t :: ts, m =>
    let r := rate_limit_ok t key m
    let rest := runRL key ts r.2
    (r.1 :: rest.1, rest.2)

/-- The bucket map written on a granted request: the key's entry
becomes `(now, day_count + 1)` with the possibly-reset day count. -/
def rloUpdate (m : Buckets) (key : String) (now : Int) : Buckets :=
  fun k =>
    if k = key then
      (now, (if now - (m key).1 > 24 * 3600 then (0 : Int) else (m key).2) + 1)
    else m k

theorem rloUpdate_self (m : Buckets) (key : String) (now : Int) :
    rloUpdate m key now key
      = (now, (if now - (m key).1 > 24 * 3600 then (0 : Int) else (m key).2) + 1) := by
  simp [rloUpdate]

theorem rlo_reject_minute (m : Buckets) (key : String) (now : Int)
    (h : now - (m key).1 < 60) : rate_limit_ok now key m = (false, m) := by
  unfold rate_limit_ok
  rw [if_pos h]

theorem rlo_reject_cap (m : Buckets) (key : String) (now : Int)
    (h1 : ¬ now - (m key).1 < 60)
    (h2 : (if now - (m key).1 > 24 * 3600 then (0 : Int) else (m key).2) ≥ 5) :
    rate_limit_ok now key m = (false, m) := by
  unfold rate_limit_ok
  rw [if_neg h1, if_pos h2]

theorem rlo_granted (m : Buckets) (key : String) (now : Int)
    (h1 : ¬ now - (m key).1 < 60)
    (h2 : ¬ (if now - (m key).1 > 24 * 3600 then (0 : Int) else (m key).2) ≥ 5) :
    rate_limit_ok now key m = (true, rloUpdate m key now) := by
  unfold rate_limit_ok rloUpdate
  rw [if_neg h1, if_neg h2]

theorem rlo_true_inv (m : Buckets) (key : String) (now : Int)
    (h : (rate_limit_ok now key m).1 = true) :
    ¬ now - (m key).1 < 60 ∧
    ¬ (if now - (m key).1 > 24 * 3600 then (0 : Int) else (m key).2) ≥ 5 := by
  by_cases h1 : now - (m key).1 < 60
  · rw [rlo_reject_minute m key now h1] at h
    simp at h
  · by_cases h2 : (if now - (m key).1 > 24 * 3600 then (0 : Int) else (m key).2) ≥ 5
    · rw [rlo_reject_cap m key now h1 h2] at h
      simp at h
    · exact ⟨h1, h2⟩

/-- C7: the rate limiter as a state machine: (1) a request less than 60
seconds after a granted request is rejected; (2) a request 61 seconds
after a granted one is allowed while the stored day-count is under 5;
(3) with a day-count of at least 5 and the last granted request between
60 seconds and 24 hours ago, the request is rejected regardless of the
minute gate; (4) within 24 hours of the last grant the day-counter is
not reset — a grant increments the stored count; (5) more than 24 hours
after the last grant the counter is reset to zero before evaluating, so
the request is granted and the new count is 1; (6) the spec's literal
trace: from a fresh bucket, five granted requests 61 seconds apart are
followed by a rejected sixth. -/
theorem rate_limit_state_machine :
    (∀ (m : Buckets) (key : String) (now d : Int),
        0 ≤ d → d < 60 → (rate_limit_ok now key m).1 = true →
        (rate_limit_ok (now + d) key (rate_limit_ok now key m).2).1 = false) ∧
    (∀ (m : Buckets) (key : String) (now : Int),
        (rate_limit_ok now key m).1 = true →
        ((rate_limit_ok now key m).2 key).2 < 5 →
        (rate_limit_ok (now + 61) key (rate_limit_ok now key m).2).1 = true) ∧
    (∀ (m : Buckets) (key : String) (now : Int),
        5 ≤ (m key).2 → 60 ≤ now - (m key).1 → now - (m key).1 ≤ 24 * 3600 →
        (rate_limit_ok now key m).1 = false) ∧
    (∀ (m : Buckets) (key : String) (now : Int),
        60 ≤ now - (m key).1 → now - (m key).1 ≤ 24 * 3600 → (m key).2 < 5 →
        (rate_limit_ok now key m).1 = true ∧
        ((rate_limit_ok now key m).2 key).2 = (m key).2 + 1) ∧
    (∀ (m : Buckets) (key : String) (now : Int),
        24 * 3600 < now - (m key).1 →
        (rate_limit_ok now key m).1 = true ∧
        (rate_limit_ok now key m).2 key = (now, 1)) ∧
    (runRL "k" [100, 161, 222, 283, 344, 405] initBuckets).1 =
      [true, true, true, true, true, false] := by
  refine ⟨?_, ?_, ?_, ?_, ?_, by decide⟩
  · intro m key now d h0 h60 hg
    obtain ⟨h1, h2⟩ := rlo_true_inv m key now hg
    rw [rlo_granted m key now h1 h2]
    rw [rlo_reject_minute _ key (now + d)
      (by dsimp only; rw [rloUpdate_self]; omega)]
  · intro m key now hg hc
    obtain ⟨h1, h2⟩ := rlo_true_inv m key now hg
    rw [rlo_granted m key now h1 h2] at hc ⊢
    dsimp only at hc
    rw [rloUpdate_self] at hc
    dsimp only at hc
    rw [rlo_granted _ key (now + 61)
      (by dsimp only; rw [rloUpdate_self]; omega)
      (by dsimp only; rw [rloUpdate_self]; dsimp only; rw [if_neg (by omega)]; omega)]
  · intro m key now h5 h60 h24
    rw [rlo_reject_cap m key now (by omega) (by rw [if_neg (by omega)]; omega)]
  · intro m key now h60 h24 hc
    have h2 : ¬ (if now - (m key).1 > 24 * 3600 then (0 : Int) else (m key).2) ≥ 5 := by
      rw [if_neg (by omega)]; omega
    rw [rlo_granted m key now (by omega) h2]
    refine ⟨rfl, ?_⟩
    dsimp only
    rw [rloUpdate_self]
    dsimp only
    rw [if_neg (show ¬ now - (m key).1 > 24 * 3600 by omega)]
  · intro m key now h24
    have h2 : ¬ (if now - (m key).1 > 24 * 3600 then (0 : Int) else (m key).2) ≥ 5 := by
      rw [if_pos (by omega)]; omega
    rw [rlo_granted m key now (by omega) h2]
    refine ⟨rfl, ?_⟩
    dsimp only
    rw [rloUpdate_self]
    rw [if_pos (show now - (m key).1 > 24 * 3600 by omega)]
    norm_num

/-- C7 witness: instances of the state-machine parts on a fresh bucket
map — a grant at `t = 100`, a rejection 30 seconds later, and a grant
61 seconds later. -/
theorem rate_limit_state_machine_witness :
    (rate_limit_ok 130 "k" (rate_limit_ok 100 "k" initBuckets).2).1 = false ∧
    (rate_limit_ok 161 "k" (rate_limit_ok 100 "k" initBuckets).2).1 = true := by
  constructor
  · exact rate_limit_state_machine.1 initBuckets "k" 100 30 (by norm_num)
      (by norm_num) (by decide)
  · exact rate_limit_state_machine.2.1 initBuckets "k" 100 (by decide)
      (by decide)

/-- C9: whenever `rate_limit_ok` rejects (by the minute gate or the
daily cap), the bucket map is returned unchanged at every key — a
rejected request consumes no quota and does not move the
last-request time. -/
theorem rate_limit_rejected_no_state_change :
    ∀ (m : Buckets) (key : String) (now : Int),
      (rate_limit_ok now key m).1 = false →
      ∀ k, (rate_limit_ok now key m).2 k = m k := by
  intro m key now h k
  unfold rate_limit_ok at h ⊢
  dsimp only at h ⊢
  split_ifs at h ⊢ <;> simp_all

/-- C9 witness: a request rejected by the minute gate (30 seconds after
epoch on a fresh map) leaves the bucket of an arbitrary other key — and
of its own key — unchanged. -/
theorem rate_limit_rejected_no_state_change_witness :
    (rate_limit_ok 30 "k" initBuckets).2 "a" = initBuckets "a" ∧
    (rate_limit_ok 30 "k" initBuckets).2 "k" = initBuckets "k" :=
  ⟨rate_limit_rejected_no_state_change initBuckets "k" 30 (by decide) "a",
   rate_limit_rejected_no_state_change initBuckets "k" 30 (by decide) "k"⟩

/-! ## C5: unique-code allocation policy -/

theorem genLoop_some_fresh (gen : Nat → String) (db : DB) :
    ∀ (n i : Nat) (c : String) (j : Nat),
      genLoop gen db i n = some (c, j) → barcodeTaken db c = false := by
  intro n
  induction n with
  | zero => intro i c j h; simp [genLoop] at h
  | succ n ih =>
    intro i c j h
    unfold genLoop at h
    by_cases ht : barcodeTaken db (gen i)
    · rw [if_pos ht] at h
      exact ih (i + 1) c j h
    · rw [if_neg ht] at h
      simp only [Option.some.injEq, Prod.mk.injEq] at h
      rw [← h.1]
      simp only [Bool.not_eq_true] at ht
      exact ht

theorem genLoop_none_iff (gen : Nat → String) (db : DB) :
    ∀ (n i : Nat),
      genLoop gen db i n = none ↔
      ∀ k < n, barcodeTaken db (gen (i + k)) = true := by
  intro n
  induction n with
  | zero => intro i; simp [genLoop]
  | succ n ih =>
    intro i
    unfold genLoop
    by_cases ht : barcodeTaken db (gen i)
    · rw [if_pos ht]
      rw [ih (i + 1)]
      constructor
      · intro h k hk
        match k with
        | 0 => simpa using ht
        | k + 1 =>
          have := h k (by omega)
          rwa [show i + 1 + k = i + (k + 1) by omega] at this
      · intro h k hk
        have := h (k + 1) (by omega)
        rwa [show i + (k + 1) = i + 1 + k by omega] at this
    · rw [if_neg ht]
      simp only [reduceCtorEq, false_iff, not_forall]
      refine ⟨0, by omega, ?_⟩
      simpa using ht

/-- C5 (corrected): the allocation sites differ.  (1) Any code returned
by the generate-and-recheck loop is fresh in the store, and (2) the
loop exhausts its attempt bound exactly when every candidate it drew
collides; (3) the authenticated household create-member endpoint caps
the loop at 10 attempts and reports a fatal 500 error on exhaustion.
But (4) the `while True:` allocation paths keep retrying past every
bound in the claimed 5–10 range — with ten colliding candidates the
loop is still running after 10 attempts and then succeeds on the 11th
instead of failing; and (5) the `member_code` insert hook performs a
single generation and assigns it with no store uniqueness check at all
(the function never consults the store). -/
theorem code_allocation_policy :
    (∀ (gen : Nat → String) (db : DB) (n i : Nat) (c : String) (j : Nat),
        genLoop gen db i n = some (c, j) → barcodeTaken db c = false) ∧
    (∀ (gen : Nat → String) (db : DB) (n i : Nat),
        genLoop gen db i n = none ↔
        ∀ k < n, barcodeTaken db (gen (i + k)) = true) ∧
    (∀ (hid : Nat) (gen : Nat → String) (newMid : Nat) (nm : List Nat)
        (db : DB) (hh : Household),
        db.households.find? (fun h => h.id == hid) = some hh →
        genLoop gen db 0 10 = none →
        households_create_member hid gen newMid nm db = .error .internal) ∧
    (genLoop gen10 db10 0 10 = none ∧
       genLoop gen10 db10 0 11 = some ("F", 11) ∧
       barcodeTaken db10 "F" = false) ∧
    (∀ (gen : Nat → String), set_member_code gen none = some (gen 0)) := by
  refine ⟨?_, ?_, ?_, by decide, fun _ => rfl⟩
  · intro gen db n i c j h
    exact genLoop_some_fresh gen db n i c j h
  · intro gen db n i
    exact genLoop_none_iff gen db n i
  · intro hid gen newMid nm db hh hfind hnone
    unfold households_create_member
    rw [hfind, hnone]

/-- C5 witness: the loop applied to an empty store returns the first
candidate, which is fresh; and the household endpoint errors on the
all-colliding store. -/
theorem code_allocation_policy_witness :
    barcodeTaken ({} : DB) "Z" = false ∧
    households_create_member 900 gen10 901 [65]
        { db10 with households := [{ id := 900, owner_email := "x",
                                     household_code := "AB2CD" }] }
      = .error .internal :=
  ⟨code_allocation_policy.1 (fun _ => "Z") {} 1 0 "Z" 1 (by decide),
   code_allocation_policy.2.2.1 900 gen10 901 [65]
     { db10 with households := [{ id := 900, owner_email := "x",
                                  household_code := "AB2CD" }] }
     { id := 900, owner_email := "x", household_code := "AB2CD" }
     (by decide) (by decide)⟩

/-- C5 counterexample: the `member_code` insert hook assigns the
candidate `C1` even though `C1` is already taken in the store — a code
is assigned with no store uniqueness check, contradicting the claim
that every allocation path re-checks uniqueness. -/
theorem code_allocation_policy_counterexample :
    set_member_code (fun _ => "C1") none = some "C1" ∧
    (dbCode.members.any fun m => m.member_code == some "C1") = true := by
  decide

/-! ## C3: reporting of already-checked-in conditions -/

/-- C3 (corrected): the single check-in endpoint reports an existing
check-in inside the current AM/PM window as a successful response with
`already_checked_in = true` and the original timestamp; but the
barcode/email check-in endpoint raises a 409 Conflict error whenever
the resolved member already has a check-in inside today's
full-calendar-day window — not a success. -/
theorem already_checked_in_reporting :
    (∀ (now : Int) (e : String) (db : DB) (m : Member) (ck : Checkin),
        e ≠ "" →
        db.members.find? (fun x => x.email == e) = some m →
        findCheckinIncl db m.id (periodStart now) (periodEnd now) = some ck →
        check_in now e db =
          .ok ({ member_id := m.id, timestamp := ck.timestamp,
                 am := isAM now, already_checked_in := true }, db)) ∧
    (∀ (now : Int) (code : String) (db : DB) (m : Member),
        code ≠ "" →
        resolveByBarcodeOrEmail db code = some m →
        (findCheckinRO db m.id (dayStart now) (dayStart now + 86400)).isSome = true →
        checkin_by_barcode now code db = .error .conflict) := by
  constructor
  · intro now e db m ck he hfind hck
    unfold check_in
    rw [if_neg he, hfind]
    dsimp only
    rw [hck]
  · intro now code db m hc hres hck
    unfold checkin_by_barcode
    rw [if_neg hc, hres]
    dsimp only
    rw [hck]
    rfl

/-- C3 witness: a member who already checked in this AM period gets a
success response with the flag from the single endpoint, while the
barcode endpoint raises Conflict for a member who already checked in
today. -/
theorem already_checked_in_reporting_witness :
    check_in 10000 "s@x" dbSolo =
      .ok ({ member_id := 1, timestamp := 100,
             am := isAM 10000, already_checked_in := true }, dbSolo) ∧
    checkin_by_barcode 50000 "111" dbSolo = .error .conflict :=
  ⟨already_checked_in_reporting.1 10000 "s@x" dbSolo
     { id := 1, email := "s@x", name := [65], barcode := some "111" } ⟨1, 100⟩
     (by decide) (by decide) (by decide),
   already_checked_in_reporting.2 50000 "111" dbSolo
     { id := 1, email := "s@x", name := [65], barcode := some "111" }
     (by decide) (by decide) (by decide)⟩

/-- C3 counterexample: a member with barcode `111` who already checked
in today; the barcode/email check-in endpoint answers with a 409
Conflict error, not a successful already-checked-in response. -/
theorem already_checked_in_reporting_counterexample :
    checkin_by_barcode 50000 "111" dbSolo = .error .conflict := by
  rfl

/-! ## C4: idempotency of the single check-in -/

/-- C4 (confirmed): starting from a store in which member `m` (resolved
by email) has no check-in inside the current AM/PM window, two
sequential single check-in calls in the same period insert exactly one
`Checkin` row: the first succeeds and stamps `now1`, the second
reports `already_checked_in = true` carrying the first call's
timestamp and leaves the store unchanged, and the store then holds
exactly one check-in for `m` inside the period. -/
theorem single_checkin_idempotent :
    ∀ (now1 now2 : Int) (e : String) (db : DB) (m : Member),
      e ≠ "" →
      db.members.find? (fun x => x.email == e) = some m →
      findCheckinIncl db m.id (periodStart now1) (periodEnd now1) = none →
      periodStart now2 = periodStart now1 →
      periodEnd now2 = periodEnd now1 →
      check_in now1 e db =
        .ok ({ member_id := m.id, timestamp := now1,
               am := isAM now1, already_checked_in := false },
             { db with checkins := db.checkins ++ [⟨m.id, now1⟩] }) ∧
      check_in now2 e { db with checkins := db.checkins ++ [⟨m.id, now1⟩] } =
        .ok ({ member_id := m.id, timestamp := now1,
               am := isAM now2, already_checked_in := true },
             { db with checkins := db.checkins ++ [⟨m.id, now1⟩] }) ∧
      (List.filter
          (fun c => c.member_id == m.id &&
            decide (periodStart now2 ≤ c.timestamp) &&
            decide (c.timestamp ≤ periodEnd now2))
          (db.checkins ++ [⟨m.id, now1⟩])).length = 1 := by
  intro now1 now2 e db m he hfind hnone hps hpe
  have hself := self_mem_period now1
  have hck1 : (fun (c : Checkin) => c.member_id == m.id &&
      decide (periodStart now1 ≤ c.timestamp) &&
      decide (c.timestamp ≤ periodEnd now1)) ⟨m.id, now1⟩ = true := by
    simp only [beq_self_eq_true, Bool.true_and, Bool.and_eq_true,
      decide_eq_true_eq]
    exact ⟨hself.1, hself.2⟩
  unfold findCheckinIncl at hnone
  refine ⟨?_, ?_, ?_⟩
  · unfold check_in findCheckinIncl
    rw [if_neg he, hfind]
    dsimp only
    rw [hnone]
  · unfold check_in findCheckinIncl
    rw [if_neg he]
    dsimp only
    rw [hfind]
    dsimp only
    rw [hps, hpe]
    rw [find?_append_none _ _ _ hnone]
    simp only [List.find?, hck1]
  · rw [hps, hpe, List.filter_append,
      filter_eq_nil_of_find?_none _ _ hnone]
    simp only [List.filter, hck1, List.nil_append, List.length_cons,
      List.length_nil]

/-- C4 witness: member `a@b` of `dbFresh` checked in twice at 10000 and
20000 seconds (both inside the same AM period). -/
theorem single_checkin_idempotent_witness :
    check_in 10000 "a@b" dbFresh =
      .ok ({ member_id := mFresh.id, timestamp := 10000,
             am := isAM 10000, already_checked_in := false },
           { dbFresh with checkins := dbFresh.checkins ++ [⟨mFresh.id, 10000⟩] }) ∧
    check_in 20000 "a@b"
        { dbFresh with checkins := dbFresh.checkins ++ [⟨mFresh.id, 10000⟩] } =
      .ok ({ member_id := mFresh.id, timestamp := 10000,
             am := isAM 20000, already_checked_in := true },
           { dbFresh with checkins := dbFresh.checkins ++ [⟨mFresh.id, 10000⟩] }) ∧
    (List.filter
        (fun c => c.member_id == mFresh.id &&
          decide (periodStart 20000 ≤ c.timestamp) &&
          decide (c.timestamp ≤ periodEnd 20000))
        (dbFresh.checkins ++ [⟨mFresh.id, 10000⟩])).length = 1 :=
  single_checkin_idempotent 10000 20000 "a@b" dbFresh mFresh
    (by decide) (by decide) (by decide) (by decide) (by decide)

/-! ## C2: family check-in by barcode/email -/

/-- C2 (corrected): for a household of 3 non-deleted members sharing
one email, 2 of whom already checked in inside today's window, the
barcode/email check-in inserts a check-in for exactly the 1 remaining
member and reports `member_count = 1`, `family_size = 3` — provided
the member the email lookup resolves (the first non-deleted member
listed with that email) is the one without a check-in today.  If the
resolved member is one of the already-checked members, the endpoint
instead raises a 409 Conflict and inserts nothing. -/
theorem barcode_family_checkin :
    (∀ (now : Int) (e : String) (db : DB) (m1 m2 m3 : Member),
        e ≠ "" →
        db.members.find? (fun m => m.barcode == some e && m.deleted_at == none)
          = none →
        db.members.filter (fun m => m.email == e && m.deleted_at == none)
          = [m1, m2, m3] →
        findCheckinRO db m1.id (dayStart now) (dayStart now + 86400) = none →
        (findCheckinRO db m2.id (dayStart now) (dayStart now + 86400)).isSome
          = true →
        (findCheckinRO db m3.id (dayStart now) (dayStart now + 86400)).isSome
          = true →
        checkin_by_barcode now e db =
          .ok (.family 1 3 [m1.name] m1.id,
               { db with checkins := db.checkins ++ [⟨m1.id, now⟩] })) ∧
    (∀ (now : Int) (code : String) (db : DB) (m : Member),
        code ≠ "" →
        resolveByBarcodeOrEmail db code = some m →
        (findCheckinRO db m.id (dayStart now) (dayStart now + 86400)).isSome
          = true →
        checkin_by_barcode now code db = .error .conflict) := by
  constructor
  · intro now e db m1 m2 m3 he hbar hfilter h1 h2 h3
    have hmem : m1 ∈ db.members.filter
        (fun m => m.email == e && m.deleted_at == none) := by
      rw [hfilter]; exact List.mem_cons_self _ _
    have hm1p := List.of_mem_filter hmem
    simp only [Bool.and_eq_true, beq_iff_eq] at hm1p
    have hres : db.members.find? (fun m => m.email == e && m.deleted_at == none)
        = some m1 := by
      rw [find?_eq_filter_head, hfilter]; rfl
    have e1 : (findCheckinRO db m1.id (dayStart now) (dayStart now + 86400)).isSome
        = false := by rw [h1]; rfl
    obtain ⟨ck2, hck2⟩ := Option.isSome_iff_exists.mp h2
    obtain ⟨ck3, hck3⟩ := Option.isSome_iff_exists.mp h3
    have e2 : (findCheckinRO
        { db with checkins := db.checkins ++ [⟨m1.id, now⟩] } m2.id
        (dayStart now) (dayStart now + 86400)).isSome = true := by
      unfold findCheckinRO at hck2 ⊢
      dsimp only
      rw [find?_append_some _ _ _ _ hck2]
      rfl
    have e3 : (findCheckinRO
        { db with checkins := db.checkins ++ [⟨m1.id, now⟩] } m3.id
        (dayStart now) (dayStart now + 86400)).isSome = true := by
      unfold findCheckinRO at hck3 ⊢
      dsimp only
      rw [find?_append_some _ _ _ _ hck3]
      rfl
    unfold checkin_by_barcode resolveByBarcodeOrEmail
    rw [if_neg he, hbar, hres]
    dsimp only
    rw [if_neg (by rw [e1]; exact Bool.false_ne_true)]
    simp only [hm1p.1]
    rw [hfilter]
    rw [if_pos (by norm_num)]
    simp only [familyLoop, e1, e2, e3, Bool.false_eq_true, if_false, if_true,
      ite_true, ite_false]
    rfl
  · intro now code db m hc hres hck
    unfold checkin_by_barcode
    rw [if_neg hc, hres]
    dsimp only
    rw [hck]
    rfl

/-- C2 witness: the 3-member family `dbFam` with the unchecked member
resolved first — exactly one check-in row is added and the response
reports 1 of 3. -/
theorem barcode_family_checkin_witness :
    checkin_by_barcode 50000 "f@x" dbFam =
      .ok (.family 1 3 [mAnn.name] mAnn.id,
           { dbFam with checkins := dbFam.checkins ++ [⟨mAnn.id, 50000⟩] }) ∧
    checkin_by_barcode 50000 "f@x" dbFamSwapped = .error .conflict :=
  ⟨barcode_family_checkin.1 50000 "f@x" dbFam mAnn mBob mCid
     (by decide) (by decide) (by decide) (by decide) (by decide) (by decide),
   barcode_family_checkin.2 50000 "f@x" dbFamSwapped mBob
     (by decide) (by decide) (by decide)⟩

/-- C2 counterexample: the same 3-member household with 2 members
already checked in, but stored so that the email lookup resolves to an
already-checked member — the endpoint returns a 409 Conflict and checks
nobody in, so the claim does not hold for every such store state. -/
theorem barcode_family_checkin_counterexample :
    checkin_by_barcode 50000 "f@x" dbFamSwapped = .error .conflict := by
  rfl

/-! ## C8: email update cascade -/

/-- C8 (confirmed): when the member-update operation resolves member
`m`, the resulting member emails are: every non-deleted member that
carried `m`'s old email now carries the submitted email when that email
differs from the old one, and every other member's email — members with
different emails, soft-deleted members, and everyone when the submitted
email equals the current one — is unchanged. -/
theorem update_member_email_cascade :
    ∀ (mid : Nat) (n2 : List Nat) (e2 : String) (db : DB) (m : Member),
      db.members.find? (fun x => x.id == mid && x.deleted_at == none) = some m →
      Except.map (fun db2 => db2.members.map fun x => x.email)
          (update_member mid n2 e2 db)
        = .ok (db.members.map fun x =>
            if m.email ≠ e2 ∧ x.email = m.email ∧ x.deleted_at = none
            then e2 else x.email) := by
  intro mid n2 e2 db m hfind
  unfold update_member
  rw [hfind]
  dsimp only
  by_cases hne : m.email ≠ e2
  · rw [if_pos hne]
    dsimp only [Except.map]
    rw [List.map_map, List.map_map]
    have hfun : (((fun x : Member => x.email) ∘
          (fun x : Member =>
            if x.email = m.email ∧ x.deleted_at = none
            then { x with email := e2 } else x)) ∘
          (fun x : Member =>
            if x.id = m.id then { x with name := capitalize_name n2 } else x))
        = fun x : Member =>
            if m.email ≠ e2 ∧ x.email = m.email ∧ x.deleted_at = none
            then e2 else x.email := by
      funext x
      simp only [Function.comp]
      by_cases hid : x.id = m.id
      · rw [if_pos hid]
        by_cases hcond : x.email = m.email ∧ x.deleted_at = none
        · rw [if_pos (show ({ x with name := capitalize_name n2 } : Member).email
              = m.email ∧ ({ x with name := capitalize_name n2 } : Member).deleted_at
              = none from hcond)]
          rw [if_pos ⟨hne, hcond.1, hcond.2⟩]
        · rw [if_neg (show ¬ (({ x with name := capitalize_name n2 } : Member).email
              = m.email ∧ ({ x with name := capitalize_name n2 } : Member).deleted_at
              = none) from hcond)]
          rw [if_neg (fun hcon => hcond ⟨hcon.2.1, hcon.2.2⟩)]
      · rw [if_neg hid]
        by_cases hcond : x.email = m.email ∧ x.deleted_at = none
        · rw [if_pos hcond, if_pos ⟨hne, hcond.1, hcond.2⟩]
        · rw [if_neg hcond, if_neg (fun hcon => hcond ⟨hcon.2.1, hcon.2.2⟩)]
    rw [hfun]
  · rw [if_neg hne]
    push_neg at hne
    dsimp only [Except.map]
    rw [List.map_map]
    have hfun : ((fun x : Member => x.email) ∘
          (fun x : Member =>
            if x.id = m.id then { x with name := capitalize_name n2 } else x))
        = fun x : Member =>
            if m.email ≠ e2 ∧ x.email = m.email ∧ x.deleted_at = none
            then e2 else x.email := by
      funext x
      simp only [Function.comp, hne, ne_eq, not_true_eq_false, false_and,
        if_false]
      by_cases hid : x.id = m.id
      · rw [if_pos hid]
      · rw [if_neg hid]
    rw [hfun]

/-- C8 witness: updating member 1 of `dbUpd` from email `a` to `b`
rewrites the email of both non-deleted `a`-members, leaves the `c`
member and the soft-deleted `a` member untouched. -/
theorem update_member_email_cascade_witness :
    Except.map (fun db2 => db2.members.map fun x => x.email)
        (update_member 1 [66] "b" dbUpd)
      = .ok (dbUpd.members.map fun x =>
          if mUpd.email ≠ "b" ∧ x.email = mUpd.email ∧ x.deleted_at = none
          then "b" else x.email) :=
  update_member_email_cascade 1 [66] "b" dbUpd mUpd (by decide)

/-! ## C6: member-name uniqueness inside a household -/

/-- C6 (corrected): the write paths do not all enforce the
duplicate-name rule.  (1) Direct registration rejects a duplicate
non-deleted member carrying the capitalized submitted name with 409
Conflict before inserting; but (2) the authenticated household
create-member endpoint performs no duplicate-name check at all — once a
barcode is allocated it inserts unconditionally, whatever names the
household already holds; and (3) family registration checks the
submitted names verbatim while inserting their capitalized forms, so a
case-variant submission (`john` against a stored `John`) passes the
check and creates a second non-deleted member with the identical
name in the household. -/
theorem member_name_uniqueness_paths :
    (∀ (gen : Nat → String) (fuel newHid newMid : Nat) (e : String)
        (nm : List Nat) (db : DB) (hh : Household),
        e ≠ "" → nm ≠ [] →
        db.households.find? (fun h => h.owner_email == e) = some hh →
        (db.members.find? fun m =>
          m.household_id == some hh.id && m.name == capitalize_name nm &&
          m.deleted_at == none).isSome = true →
        create_member gen fuel newHid newMid e nm db = .error .conflict) ∧
    (∀ (hid : Nat) (gen : Nat → String) (newMid : Nat) (nm : List Nat)
        (db : DB) (hh : Household) (bc : String) (j : Nat),
        db.households.find? (fun h => h.id == hid) = some hh →
        genLoop gen db 0 10 = some (bc, j) →
        households_create_member hid gen newMid nm db =
          .ok ({ id := newMid, email := hh.owner_email, name := pyStrip nm,
                 barcode := some bc, household_id := some hid },
               { db with members := db.members ++
                   [{ id := newMid, email := hh.owner_email, name := pyStrip nm,
                      barcode := some bc, household_id := some hid }] })) ∧
    ((postMembers (register_family (fun _ => "B8") 1 99 50 "f@x" [nmjohn] dbDup)).map
        (fun ms => (ms.filter fun m =>
          m.household_id == some 1 && m.deleted_at == none &&
          m.name == nmJohn).length) = some 2) := by
  refine ⟨?_, ?_, by decide⟩
  · intro gen fuel newHid newMid e nm db hh he hnm hfind hdup
    unfold create_member
    rw [if_neg (not_or.mpr ⟨he, hnm⟩), hfind]
    dsimp only
    rw [if_pos hdup]
  · intro hid gen newMid nm db hh bc j hfind hgen
    unfold households_create_member
    rw [hfind, hgen]

/-- C6 witness: direct registration of `john` into the household that
already holds a non-deleted `John` is rejected with 409 Conflict. -/
theorem member_name_uniqueness_paths_witness :
    create_member (fun _ => "B9") 1 99 50 "f@x" nmjohn dbDup = .error .conflict :=
  member_name_uniqueness_paths.1 (fun _ => "B9") 1 99 50 "f@x" nmjohn dbDup
    { id := 1, owner_email := "f@x", household_code := "AB2CD" }
    (by decide) (by decide) (by decide) (by decide)

/-- C6 counterexample: the authenticated household create-member
endpoint, asked to add `John` to the household that already holds a
non-deleted `John`, succeeds and leaves two non-deleted members with
the identical name in the household — so not every member-creating
write path rejects duplicate non-deleted names. -/
theorem member_name_uniqueness_paths_counterexample :
    (postMembers (households_create_member 1 (fun _ => "B7") 9 nmJohn dbDup)).map
        (fun ms => (ms.filter fun m =>
          m.household_id == some 1 && m.deleted_at == none &&
          m.name == nmJohn).length) = some 2 := by
  decide

/-! ## C10: idempotency of `capitalize_name` -/

theorem toUpperA_idem (n : Nat) : toUpperA (toUpperA n) = toUpperA n := by
  unfold toUpperA
  split_ifs <;> omega

theorem toLowerA_idem (n : Nat) : toLowerA (toLowerA n) = toLowerA n := by
  unfold toLowerA
  split_ifs <;> omega

theorem pyIsSpace_toUpperA (n : Nat) : pyIsSpace (toUpperA n) = pyIsSpace n := by
  unfold toUpperA pyIsSpace
  split_ifs with h
  · simp only [decide_eq_decide]
    omega
  · rfl

theorem pyIsSpace_toLowerA (n : Nat) : pyIsSpace (toLowerA n) = pyIsSpace n := by
  unfold toLowerA pyIsSpace
  split_ifs with h
  · simp only [decide_eq_decide]
    omega
  · rfl

theorem pyCapitalize_idem (w : List Nat) :
    pyCapitalize (pyCapitalize w) = pyCapitalize w := by
  cases w with
  | nil => rfl
  | cons c rest =>
    simp only [pyCapitalize, toUpperA_idem, List.map_map]
    have hl : toLowerA ∘ toLowerA = toLowerA := funext toLowerA_idem
    rw [hl]

theorem capWord_eq (w : List Nat) : capWord w = pyCapitalize w := by
  cases w with
  | nil => rfl
  | cons c rest =>
    unfold capWord
    split_ifs <;> rfl

theorem capWord_idem (w : List Nat) : capWord (capWord w) = capWord w := by
  simp only [capWord_eq, pyCapitalize_idem]

theorem capWord_ne_nil (w : List Nat) (h : w ≠ []) : capWord w ≠ [] := by
  rw [capWord_eq]
  cases w with
  | nil => exact absurd rfl h
  | cons c rest => simp [pyCapitalize]

theorem capWord_no_space (w : List Nat)
    (h : ∀ c ∈ w, pyIsSpace c = false) :
    ∀ c ∈ capWord w, pyIsSpace c = false := by
  rw [capWord_eq]
  cases w with
  | nil => simp [pyCapitalize]
  | cons c rest =>
    intro x hx
    simp only [pyCapitalize, List.mem_cons, List.mem_map] at hx
    rcases hx with hx | ⟨y, hy, hyx⟩
    · rw [hx, pyIsSpace_toUpperA]
      exact h c (List.mem_cons_self c rest)
    · rw [← hyx, pyIsSpace_toLowerA]
      exact h y (List.mem_cons_of_mem c hy)

theorem splitWsAux_nil (acc : List Nat) :
    splitWsAux [] acc = if acc = [] then [] else [acc.reverse] := rfl

theorem splitWsAux_cons (c : Nat) (cs acc : List Nat) :
    splitWsAux (c :: cs) acc =
      if pyIsSpace c then
        (if acc = [] then splitWsAux cs [] else acc.reverse :: splitWsAux cs [])
      else splitWsAux cs (c :: acc) := rfl

theorem splitWsAux_sound (l : List Nat) :
    ∀ (acc : List Nat), (∀ c ∈ acc, pyIsSpace c = false) →
    ∀ w ∈ splitWsAux l acc, w ≠ [] ∧ ∀ c ∈ w, pyIsSpace c = false := by
  induction l with
  | nil =>
    intro acc hacc w hw
    rw [splitWsAux_nil] at hw
    split_ifs at hw with h
    · simp at hw
    · simp only [List.mem_singleton] at hw
      subst hw
      refine ⟨by simpa using h, ?_⟩
      intro c hc
      exact hacc c (List.mem_reverse.mp hc)
  | cons a l ih =>
    intro acc hacc w hw
    rw [splitWsAux_cons] at hw
    split_ifs at hw with hsp hacc0
    · exact ih [] (by simp) w hw
    · rcases List.mem_cons.mp hw with hwa | hw2
      · subst hwa
        refine ⟨by simpa using hacc0, ?_⟩
        intro c hc
        exact hacc c (List.mem_reverse.mp hc)
      · exact ih [] (by simp) w hw2
    · refine ih (a :: acc) ?_ w hw
      intro c hc
      rcases List.mem_cons.mp hc with hca | hc2
      · subst hca
        simpa using hsp
      · exact hacc c hc2

theorem splitWsAux_word_run (w : List Nat) :
    ∀ (cs acc : List Nat), (∀ c ∈ w, pyIsSpace c = false) →
    splitWsAux (w ++ cs) acc = splitWsAux cs (w.reverse ++ acc) := by
  induction w with
  | nil => intro cs acc h; simp
  | cons a w ih =>
    intro cs acc h
    have ha : pyIsSpace a = false := h a (List.mem_cons_self a w)
    simp only [List.cons_append]
    rw [splitWsAux_cons, if_neg (by simp [ha])]
    rw [ih cs (a :: acc) (fun c hc => h c (List.mem_cons_of_mem a hc))]
    congr 1
    simp

theorem splitWsAux_all_space (t : List Nat)
    (h : ∀ c ∈ t, pyIsSpace c = true) :
    ∀ acc, splitWsAux t acc = splitWsAux [] acc := by
  induction t with
  | nil => intro acc; rfl
  | cons a t ih =>
    intro acc
    have ha := h a (List.mem_cons_self a t)
    have ht := ih (fun c hc => h c (List.mem_cons_of_mem a hc))
    rw [splitWsAux_cons, if_pos (by simp [ha]), splitWsAux_nil]
    split_ifs with hacc
    · rw [ht [], splitWsAux_nil]
      rfl
    · rw [ht [], splitWsAux_nil]
      rfl

theorem splitWsAux_append_space (l t : List Nat)
    (ht : ∀ c ∈ t, pyIsSpace c = true) :
    ∀ acc, splitWsAux (l ++ t) acc = splitWsAux l acc := by
  induction l with
  | nil =>
    intro acc
    simp only [List.nil_append]
    exact splitWsAux_all_space t ht acc
  | cons a l ih =>
    intro acc
    simp only [List.cons_append]
    rw [splitWsAux_cons, splitWsAux_cons]
    split_ifs with h1 h2
    · exact ih []
    · rw [ih []]
    · exact ih (a :: acc)

theorem splitWsAux_dropWhile (l : List Nat) :
    splitWsAux (l.dropWhile pyIsSpace) [] = splitWsAux l [] := by
  induction l with
  | nil => rfl
  | cons a l ih =>
    rw [List.dropWhile_cons]
    by_cases hsp : pyIsSpace a = true
    · rw [if_pos hsp, ih]
      rw [splitWsAux_cons, if_pos (by simp [hsp]), if_pos rfl]
    · rw [if_neg hsp]

theorem pySplit_strip (l : List Nat) : pySplit (pyStrip l) = pySplit l := by
  unfold pySplit pyStrip
  have hdec : ((l.dropWhile pyIsSpace).reverse.dropWhile pyIsSpace).reverse ++
      ((l.dropWhile pyIsSpace).reverse.takeWhile pyIsSpace).reverse
      = l.dropWhile pyIsSpace := by
    rw [← List.reverse_append, List.takeWhile_append_dropWhile,
      List.reverse_reverse]
  have ht : ∀ c ∈ ((l.dropWhile pyIsSpace).reverse.takeWhile pyIsSpace).reverse,
      pyIsSpace c = true := by
    intro c hc
    exact List.mem_takeWhile_imp (List.mem_reverse.mp hc)
  calc splitWsAux ((l.dropWhile pyIsSpace).reverse.dropWhile pyIsSpace).reverse []
      = splitWsAux (((l.dropWhile pyIsSpace).reverse.dropWhile pyIsSpace).reverse ++
          ((l.dropWhile pyIsSpace).reverse.takeWhile pyIsSpace).reverse) [] :=
        (splitWsAux_append_space _ _ ht []).symm
    _ = splitWsAux (l.dropWhile pyIsSpace) [] := by rw [hdec]
    _ = splitWsAux l [] := splitWsAux_dropWhile l

theorem pySplit_join (ws : List (List Nat))
    (h : ∀ w ∈ ws, w ≠ [] ∧ ∀ c ∈ w, pyIsSpace c = false) :
    pySplit (joinWords ws) = ws := by
  induction ws with
  | nil => rfl
  | cons w tail ih =>
    cases tail with
    | nil =>
      obtain ⟨hw, hwc⟩ := h w (List.mem_cons_self w [])
      show pySplit (joinWords [w]) = [w]
      unfold pySplit
      rw [show joinWords [w] = w from rfl]
      rw [show (w : List Nat) = w ++ [] by simp,
        splitWsAux_word_run w [] [] (by simpa using hwc)]
      rw [List.append_nil, splitWsAux_nil]
      rw [if_neg (by simpa using hw)]
      simp
    | cons w2 rest =>
      obtain ⟨hw, hwc⟩ := h w (List.mem_cons_self _ _)
      have htail := fun x hx => h x (List.mem_cons_of_mem w hx)
      show pySplit (w ++ 32 :: joinWords (w2 :: rest)) = w :: w2 :: rest
      unfold pySplit
      rw [splitWsAux_word_run w _ [] hwc]
      rw [List.append_nil]
      rw [splitWsAux_cons]
      rw [if_pos (by decide)]
      rw [if_neg (by simpa using hw)]
      rw [List.reverse_reverse]
      congr 1
      exact ih htail

theorem capitalize_name_words (name : List Nat) (h0 : name ≠ []) :
    capitalize_name name = joinWords ((pySplit (pyStrip name)).map capWord) := by
  unfold capitalize_name
  rw [if_neg h0]

/-- C10 (confirmed): `capitalize_name` is idempotent — its output is
already in the normal form it produces (single-space-joined words, each
word first-letter-uppercased and otherwise lowercased), so applying it
again changes nothing. -/
theorem capitalize_name_idempotent :
    ∀ (name : List Nat),
      capitalize_name (capitalize_name name) = capitalize_name name := by
  intro name
  by_cases h0 : name = []
  · subst h0; rfl
  · have hwords : ∀ w ∈ pySplit (pyStrip name),
        w ≠ [] ∧ ∀ c ∈ w, pyIsSpace c = false :=
      fun w hw => splitWsAux_sound (pyStrip name) [] (by simp) w hw
    have hwords2 : ∀ w ∈ (pySplit (pyStrip name)).map capWord,
        w ≠ [] ∧ ∀ c ∈ w, pyIsSpace c = false := by
      intro w hw
      obtain ⟨y, hy, hyw⟩ := List.mem_map.mp hw
      obtain ⟨hy1, hy2⟩ := hwords y hy
      exact hyw ▸ ⟨capWord_ne_nil y hy1, capWord_no_space y hy2⟩
    rw [capitalize_name_words name h0]
    by_cases hout : joinWords ((pySplit (pyStrip name)).map capWord) = []
    · rw [hout]; rfl
    · rw [capitalize_name_words _ hout]
      rw [pySplit_strip, pySplit_join _ hwords2]
      rw [List.map_map]
      have hcc : capWord ∘ capWord = capWord := funext capWord_idem
      rw [hcc]
